import Mathlib

/-!
Verification of the nylon-ring plugin host (repository AssetsArt/nylon-ring).

The repository contains two compiled host crates and one set of dispatcher
callbacks:

* `src/crates/nylon-ring-host/src/lib.rs` — a simplified host
  (namespace `Crates` below);
* `src/nylon-ring-host/src/lib.rs` — the full host (namespace `Full` below);
* `src/crates/nylon-ring-host/src/callbacks.rs` together with
  `src/crates/nylon-ring-host/src/sid.rs` — the cross-plugin dispatcher
  callbacks and the block session-id allocator (namespaces `Callbacks` and
  `Sid` below).  The host-context helpers these callbacks rely on
  (`insert_pending`, `remove_pending`, `reinsert_pending`, `get_plugin`,
  `insert_stream_receiver`, …) are not present in the sources; they are
  modelled from the spec where noted.

Machine integers (`u64`) are modelled as `Nat`; where overflow matters
(the per-host `AtomicU64` counter) the reduction modulo `2 ^ 64` is explicit.
Byte buffers are `List Nat`.  Concurrency is modelled by explicit
interleaving: a plugin invocation is a list of callback actions followed by a
synchronous return status (or a panic).
-/

/-- Status codes of the ring ABI (`NrStatus` in `nylon-ring/src/lib.rs`):
`Ok=0, Err=1, Invalid=2, Unsupported=3, StreamEnd=4`. -/
inductive NrStatus where
  | Ok
  | Err
  | Invalid
  | Unsupported
  | StreamEnd
deriving DecidableEq, Repr

/-- The `matches!(status, Err | Invalid | Unsupported | StreamEnd)` test used
by `send_result` to decide whether a stream frame is terminal. -/
def NrStatus.isFinished : NrStatus → Bool
  | .Ok => false
  | .Err => true
  | .Invalid => true
  | .Unsupported => true
  | .StreamEnd => true

/-- Owned byte buffers (`Vec<u8>` / `NrVec<u8>` contents). -/
abbrev Bytes := List Nat

/-- One frame of a streaming response (`StreamFrame { status, data }`). -/
structure Frame where
  status : NrStatus
  data : Bytes
deriving DecidableEq, Repr

/-- A pending-registry entry: `Pending::Unary(tx)` or `Pending::Stream(tx)`.
The channel a sender delivers into is identified by a numeric id. -/
inductive Pending where
  | Unary (ch : Nat)
  | Stream (ch : Nat)
deriving DecidableEq, Repr

/-- Lookup in a finite map modelled as an association list
(model of `DashMap` / `HashMap`). -/
def mfind {κ α : Type} [DecidableEq κ] (m : List (κ × α)) (k : κ) : Option α :=
  match m with
  | [] => none
  | (k2, v) :: rest => if k2 = k then some v else mfind rest k

/-- Removal of a key (`DashMap::remove` discards the mapping for the key). -/
def merase {κ α : Type} [DecidableEq κ] (m : List (κ × α)) (k : κ) : List (κ × α) :=
  match m with
  | [] => []
  | p :: rest => if p.1 = k then merase rest k else p :: merase rest k

/-- Insertion (`DashMap::insert` replaces any existing mapping for the key). -/
def minsert {κ α : Type} [DecidableEq κ] (m : List (κ × α)) (k : κ) (v : α) :
    List (κ × α) :=
  (k, v) :: merase m k

/-- The modulus of 64-bit machine arithmetic. -/
def U64 : Nat := 2 ^ 64

namespace Crates

/-!
Model of `src/crates/nylon-ring-host/src/lib.rs`.

`HostContext` there is
`{ pending_requests : DashMap<u64, Pending>,
   state_per_sid : DashMap<u64, HashMap<String, NrBytes>>, host_ext }`.
Note that the state map stores `NrBytes`, i.e. a borrowed `(ptr, len)` view;
a view is modelled as the id of the caller's buffer, and a separate `heap`
function gives each buffer's current contents when the view is read.
The thread-local `CURRENT_UNARY_TX : Cell<*mut Option<Sender>>` is modelled
as `cellTx : Option (Option Nat)`: `none` is the null pointer, `some slot`
is a published stack slot whose contents are `slot` (an optional channel).
Channel message queues for both oneshot and stream channels live in
`chanMsgs`.
-/

/-- State of the simplified host's `HostContext` plus the thread-local
oneshot cell and a fresh-channel counter. -/
structure HostState where
  pending : List (Nat × Pending)
  statePerSid : List (Nat × List (String × Nat))
  chanMsgs : List (Nat × List Frame)
  nextChan : Nat
  cellTx : Option (Option Nat)
deriving DecidableEq

/-- Sending one message on a channel appends it to the channel's queue. -/
def chanSend (s : HostState) (ch : Nat) (f : Frame) : HostState :=
  { s with chanMsgs := minsert s.chanMsgs ch ((mfind s.chanMsgs ch).getD [] ++ [f]) }

/-- `NylonRingHost::send_result_vec_callback` (crates variant), body after the
null-pointer guard; the guard itself is settled with the `Callbacks`
namespace.  Resolution order: thread-local oneshot slot, then the pending
registry; a unary delivery and a terminal stream frame clear the scratch
state for the sid; a non-terminal stream frame reinserts the entry. -/
def send_result_vec_callback (s : HostState) (sid : Nat) (status : NrStatus)
    (payload : Bytes) : HostState :=
  match s.cellTx with
  | some (some ch) =>
      chanSend
        { s with cellTx := some none, statePerSid := merase s.statePerSid sid }
        ch ⟨status, payload⟩
  | _ =>
      match mfind s.pending sid with
      | some (Pending.Unary ch) =>
          let s1 := chanSend { s with pending := merase s.pending sid } ch
            ⟨status, payload⟩
          { s1 with statePerSid := merase s1.statePerSid sid }
      | some (Pending.Stream ch) =>
          let s1 := chanSend { s with pending := merase s.pending sid } ch
            ⟨status, payload⟩
          if status.isFinished then
            { s1 with statePerSid := merase s1.statePerSid sid }
          else
            { s1 with pending := minsert s1.pending sid (Pending.Stream ch) }
      | none => s

/-- `NylonRingHost::set_state_callback` (crates variant): it inserts the raw
`NrBytes` value — the borrowed view `value` itself, not a copy of the bytes —
into `state_per_sid`, and returns empty bytes. -/
def set_state_callback (s : HostState) (sid : Nat) (key : String) (value : Nat) :
    Bytes × HostState :=
  let inner := (mfind s.statePerSid sid).getD []
  ([], { s with statePerSid := minsert s.statePerSid sid (minsert inner key value) })

/-- `NylonRingHost::get_state_callback` (crates variant): returns the stored
`NrBytes` view, which the reader dereferences against the current contents of
the caller's buffer (`heap`); empty bytes when nothing is stored. -/
def get_state_callback (heap : Nat → Bytes) (s : HostState) (sid : Nat)
    (key : String) : Bytes :=
  match mfind s.statePerSid sid with
  | some inner =>
      match mfind inner key with
      | some vid => heap vid
      | none => []
  | none => []

/-- One callback invocation a plugin performs while its `handle` entry runs.
`setState` carries the id of the caller's buffer, since `set_state` receives
a borrowed `NrBytes` view. -/
inductive PluginAct where
  | sendResult (sid : Nat) (status : NrStatus) (payload : Bytes)
  | setState (sid : Nat) (key : String) (value : Nat)

/-- Effect of one plugin callback on the host context. -/
def runAct (s : HostState) : PluginAct → HostState
  | .sendResult sid st p => send_result_vec_callback s sid st p
  | .setState sid k v => (set_state_callback s sid k v).2

/-- Effect of a sequence of plugin callbacks. -/
def runActs (s : HostState) (acts : List PluginAct) : HostState :=
  acts.foldl runAct s

/-- Everything a plugin's `handle` invocation does: the callbacks it makes,
then its synchronous return status; `ret = none` means the plugin panicked
after performing `acts`. -/
structure PluginOutcome where
  acts : List PluginAct
  ret : Option NrStatus

/-- A plugin `handle` entry: `(entry, sid, payload) → outcome`. -/
abbrev PluginBeh := String → Nat → Bytes → PluginOutcome

/-- Typed host errors (`NylonRingHostError`), restricted to the call-path
variants the claims mention. -/
inductive NylonRingHostError where
  | MissingRequiredFunctions
  | PluginHandleFailed (status : NrStatus)
  | OneshotClosed
deriving DecidableEq, Repr

/-- The host façade: the plugin's `handle` vtable slot, the shared
`HostContext`, and the per-instance `next_sid: AtomicU64` counter. -/
structure NylonRingHost where
  plugin_handle : Option PluginBeh
  host_ctx : HostState
  next_sid : Nat

/-- The host state as constructed by `NylonRingHost::load`: empty registry
and scratch map, `next_sid` initialised to `AtomicU64::new(1)`. -/
def loadedHost (beh : Option PluginBeh) : NylonRingHost :=
  { plugin_handle := beh
    host_ctx :=
      { pending := [], statePerSid := [], chanMsgs := [], nextChan := 0
        cellTx := none }
    next_sid := 1 }

/-- `next_sid.fetch_add(1, Relaxed)`: returns the current value, stores the
wrapped successor. -/
def NylonRingHost.allocSid (h : NylonRingHost) : Nat × NylonRingHost :=
  (h.next_sid, { h with next_sid := (h.next_sid + 1) % U64 })

/-- The sid returned by the `n`-th allocation (counting from 0) a host
performs. -/
def NylonRingHost.allocs : NylonRingHost → Nat → Nat
  | h, 0 => h.allocSid.1
  | h, n + 1 => NylonRingHost.allocs h.allocSid.2 n

/-- Result of an async unary call operation.  `awaiting ch` is the `Ok` path:
the caller's future now awaits the oneshot channel `ch`.  `panicked` records
that the operation itself unwound (no `catch_unwind` on that path). -/
inductive CallResult where
  | panicked (h : NylonRingHost)
  | failed (e : NylonRingHostError) (h : NylonRingHost)
  | awaiting (ch : Nat) (h : NylonRingHost)

/-- The host state carried by a call result. -/
def CallResult.host : CallResult → NylonRingHost
  | .panicked h => h
  | .failed _ h => h
  | .awaiting _ h => h

/-- Whether the operation unwound with a panic. -/
def CallResult.isPanicked : CallResult → Bool
  | .panicked _ => true
  | _ => false

/-- The typed error a call result carries, if any. -/
def CallResult.errOf : CallResult → Option NylonRingHostError
  | .failed e _ => some e
  | _ => none

/-- `NylonRingHost::call` (crates variant): allocates a sid, registers a
`Unary` pending entry, invokes the plugin's `handle` directly — with no
`catch_unwind` around it — and on a synchronous non-`Ok` status removes the
entry and fails with `PluginHandleFailed`. -/
def call (h : NylonRingHost) (entry : String) (payload : Bytes) : CallResult :=
  let sid := h.next_sid
  let h1 := { h with next_sid := (h.next_sid + 1) % U64 }
  let ch := h1.host_ctx.nextChan
  let ctx :=
    { h1.host_ctx with
      nextChan := ch + 1
      chanMsgs := minsert h1.host_ctx.chanMsgs ch []
      pending := minsert h1.host_ctx.pending sid (Pending.Unary ch) }
  match h1.plugin_handle with
  | none =>
      .failed .MissingRequiredFunctions
        { h1 with host_ctx := { ctx with pending := merase ctx.pending sid } }
  | some beh =>
      let out := beh entry sid payload
      let ctx1 := runActs ctx out.acts
      match out.ret with
      | none => .panicked { h1 with host_ctx := ctx1 }
      | some st =>
          if st = NrStatus.Ok then .awaiting ch { h1 with host_ctx := ctx1 }
          else
            .failed (.PluginHandleFailed st)
              { h1 with host_ctx := { ctx1 with pending := merase ctx1.pending sid } }

/-- `NylonRingHost::call_unary_fast` (crates variant): publishes a stack
oneshot sender through the thread-local cell instead of the registry, invokes
`handle` under `catch_unwind`, and nulls the cell on every exit path. -/
def call_unary_fast (h : NylonRingHost) (entry : String) (payload : Bytes) :
    CallResult :=
  let sid := h.next_sid
  let h1 := { h with next_sid := (h.next_sid + 1) % U64 }
  let ch := h1.host_ctx.nextChan
  let ctx :=
    { h1.host_ctx with
      nextChan := ch + 1
      chanMsgs := minsert h1.host_ctx.chanMsgs ch []
      cellTx := some (some ch) }
  match h1.plugin_handle with
  | none =>
      .failed .MissingRequiredFunctions
        { h1 with host_ctx := { ctx with cellTx := none } }
  | some beh =>
      let out := beh entry sid payload
      let ctx1 := { runActs ctx out.acts with cellTx := none }
      match out.ret with
      | none => .failed (.PluginHandleFailed .Err) { h1 with host_ctx := ctx1 }
      | some st =>
          if st = NrStatus.Ok then .awaiting ch { h1 with host_ctx := ctx1 }
          else .failed (.PluginHandleFailed st) { h1 with host_ctx := ctx1 }

/-- Result of `call_stream`: the `Ok` path hands back the sid and the frame
receiver's channel. -/
inductive StreamCallResult where
  | failed (e : NylonRingHostError) (h : NylonRingHost)
  | opened (sid : Nat) (ch : Nat) (h : NylonRingHost)

/-- The host state carried by a stream-call result. -/
def StreamCallResult.host : StreamCallResult → NylonRingHost
  | .failed _ h => h
  | .opened _ _ h => h

/-- The typed error a stream-call result carries, if any. -/
def StreamCallResult.errOf : StreamCallResult → Option NylonRingHostError
  | .failed e _ => some e
  | .opened _ _ _ => none

/-- `NylonRingHost::call_stream` (crates variant): registers a `Stream`
pending entry, invokes `handle` under `catch_unwind`, removes the entry and
fails on a panic or a synchronous non-`Ok` status, otherwise returns the sid
and the receiver. -/
def call_stream (h : NylonRingHost) (entry : String) (payload : Bytes) :
    StreamCallResult :=
  let sid := h.next_sid
  let h1 := { h with next_sid := (h.next_sid + 1) % U64 }
  let ch := h1.host_ctx.nextChan
  let ctx :=
    { h1.host_ctx with
      nextChan := ch + 1
      chanMsgs := minsert h1.host_ctx.chanMsgs ch []
      pending := minsert h1.host_ctx.pending sid (Pending.Stream ch) }
  match h1.plugin_handle with
  | none =>
      .failed .MissingRequiredFunctions
        { h1 with host_ctx := { ctx with pending := merase ctx.pending sid } }
  | some beh =>
      let out := beh entry sid payload
      let ctx1 := runActs ctx out.acts
      match out.ret with
      | none =>
          .failed (.PluginHandleFailed .Err)
            { h1 with host_ctx := { ctx1 with pending := merase ctx1.pending sid } }
      | some st =>
          if st = NrStatus.Ok then .opened sid ch { h1 with host_ctx := ctx1 }
          else
            .failed (.PluginHandleFailed st)
              { h1 with host_ctx := { ctx1 with pending := merase ctx1.pending sid } }

/-- Whether the thread-local oneshot cell currently holds a live sender
(`!ptr.is_null() && slot.is_some()`). -/
def engaged : Option (Option Nat) → Bool
  | some (some _) => true
  | _ => false

/-- Folding a list of `send_result` invocations for one sid over the host
context, in invocation order. -/
def sendAll (s : HostState) (sid : Nat) (l : List Frame) : HostState :=
  l.foldl (fun s2 f => send_result_vec_callback s2 sid f.status f.data) s

end Crates

namespace Full

/-!
Model of `src/nylon-ring-host/src/lib.rs`, the full host crate.  Its
`FastStateMap` stores owned `Vec<u8>` values: `set_state_callback` copies the
inbound view's bytes (`value.as_slice().to_vec()`), so here the scratch map
holds `Bytes` values and a `heap` function is needed at *store* time, not at
read time.
-/

/-- State of the full host's `HostContext` plus the thread-local oneshot cell
and a fresh-channel counter. -/
structure HostState where
  pending : List (Nat × Pending)
  statePerSid : List (Nat × List (String × Bytes))
  chanMsgs : List (Nat × List Frame)
  nextChan : Nat
  cellTx : Option (Option Nat)
deriving DecidableEq

/-- Sending one message on a channel appends it to the channel's queue. -/
def chanSend (s : HostState) (ch : Nat) (f : Frame) : HostState :=
  { s with chanMsgs := minsert s.chanMsgs ch ((mfind s.chanMsgs ch).getD [] ++ [f]) }

/-- `NylonRingHost::send_result_callback` (full host), body inside the
`catch_unwind` and after the null-pointer guard.  Identical resolution order
to the crates variant: thread-local oneshot slot first, then the pending
registry; unary deliveries and terminal stream frames clear the scratch
state; non-terminal stream frames reinsert the entry. -/
def send_result_callback (s : HostState) (sid : Nat) (status : NrStatus)
    (payload : Bytes) : HostState :=
  match s.cellTx with
  | some (some ch) =>
      chanSend
        { s with cellTx := some none, statePerSid := merase s.statePerSid sid }
        ch ⟨status, payload⟩
  | _ =>
      match mfind s.pending sid with
      | some (Pending.Unary ch) =>
          let s1 := chanSend { s with pending := merase s.pending sid } ch
            ⟨status, payload⟩
          { s1 with statePerSid := merase s1.statePerSid sid }
      | some (Pending.Stream ch) =>
          let s1 := chanSend { s with pending := merase s.pending sid } ch
            ⟨status, payload⟩
          if status.isFinished then
            { s1 with statePerSid := merase s1.statePerSid sid }
          else
            { s1 with pending := minsert s1.pending sid (Pending.Stream ch) }
      | none => s

/-- `NylonRingHost::set_state_callback` (full host): copies the inbound view
into a host-owned vector — it stores `heap value` read at call time — and
returns empty bytes. -/
def set_state_callback (heap : Nat → Bytes) (s : HostState) (sid : Nat)
    (key : String) (value : Nat) : Bytes × HostState :=
  let inner := (mfind s.statePerSid sid).getD []
  ([], { s with statePerSid := minsert s.statePerSid sid
                  (minsert inner key (heap value)) })

/-- `NylonRingHost::get_state_callback` (full host): returns the stored
host-owned bytes, independent of any later change to the caller's buffer;
empty bytes when nothing is stored. -/
def get_state_callback (s : HostState) (sid : Nat) (key : String) : Bytes :=
  match mfind s.statePerSid sid with
  | some inner => (mfind inner key).getD []
  | none => []

/-- Effect of one plugin callback on the full host's context.  `setState`
resolves the caller's buffer against `heap` because this variant copies. -/
def runAct (heap : Nat → Bytes) (s : HostState) : Crates.PluginAct → HostState
  | .sendResult sid st p => send_result_callback s sid st p
  | .setState sid k v => (set_state_callback heap s sid k v).2

/-- Effect of a sequence of plugin callbacks on the full host's context. -/
def runActs (heap : Nat → Bytes) (s : HostState) (acts : List Crates.PluginAct) :
    HostState :=
  acts.foldl (runAct heap) s

/-- The full host façade: the plugin's `handle_raw` vtable slot, the shared
context, the per-instance `next_sid: AtomicU64` counter. -/
structure NylonRingHost where
  plugin_handle_raw : Option Crates.PluginBeh
  host_ctx : HostState
  next_sid : Nat

/-- `NylonRingHost::call_raw_internal`: invokes `handle_raw` under
`catch_unwind`; the caller has already registered the pending entry for
`sid`.  A missing `handle_raw`, a panic, or a synchronous non-`Ok` status
each remove the entry and return the corresponding error. -/
def call_raw_internal (heap : Nat → Bytes) (h : NylonRingHost) (sid : Nat)
    (entry : String) (payload : Bytes) :
    Except Crates.NylonRingHostError NrStatus × NylonRingHost :=
  match h.plugin_handle_raw with
  | none =>
      (.error .MissingRequiredFunctions,
        { h with host_ctx := { h.host_ctx with pending := merase h.host_ctx.pending sid } })
  | some beh =>
      let out := beh entry sid payload
      let ctx1 := runActs heap h.host_ctx out.acts
      match out.ret with
      | none =>
          (.error (.PluginHandleFailed .Err),
            { h with host_ctx := { ctx1 with pending := merase ctx1.pending sid } })
      | some st =>
          if st = NrStatus.Ok then (.ok st, { h with host_ctx := ctx1 })
          else
            (.error (.PluginHandleFailed st),
              { h with host_ctx := { ctx1 with pending := merase ctx1.pending sid } })

/-- Result of a full-host async unary call: either a typed error or the `Ok`
path awaiting oneshot channel `ch`.  Every plugin invocation in this crate is
wrapped in `catch_unwind`, so there is no panic outcome. -/
inductive CallResult where
  | failed (e : Crates.NylonRingHostError) (h : NylonRingHost)
  | awaiting (ch : Nat) (h : NylonRingHost)

/-- The host state carried by a full-host call result. -/
def CallResult.host : CallResult → NylonRingHost
  | .failed _ h => h
  | .awaiting _ h => h

/-- `NylonRingHost::call_raw`: allocates a sid, registers a `Unary` pending
entry, runs `call_raw_internal`, then awaits the oneshot channel. -/
def call_raw (heap : Nat → Bytes) (h : NylonRingHost) (entry : String)
    (payload : Bytes) : CallResult :=
  let sid := h.next_sid
  let h1 := { h with next_sid := (h.next_sid + 1) % U64 }
  let ch := h1.host_ctx.nextChan
  let h2 :=
    { h1 with
      host_ctx :=
        { h1.host_ctx with
          nextChan := ch + 1
          chanMsgs := minsert h1.host_ctx.chanMsgs ch []
          pending := minsert h1.host_ctx.pending sid (Pending.Unary ch) } }
  match call_raw_internal heap h2 sid entry payload with
  | (.error e, h3) => .failed e h3
  | (.ok _, h3) => .awaiting ch h3

/-- `NylonRingHost::call_raw_unary_fast`: publishes a stack oneshot sender
through the thread-local cell (no registry entry), invokes `handle_raw`
under `catch_unwind`, and nulls the cell on every exit path — the missing
`handle_raw` error, the trapped panic, the synchronous non-`Ok` status and
the normal return — before returning. -/
def call_raw_unary_fast (heap : Nat → Bytes) (h : NylonRingHost) (entry : String)
    (payload : Bytes) : CallResult :=
  let sid := h.next_sid
  let h1 := { h with next_sid := (h.next_sid + 1) % U64 }
  let ch := h1.host_ctx.nextChan
  let ctx :=
    { h1.host_ctx with
      nextChan := ch + 1
      chanMsgs := minsert h1.host_ctx.chanMsgs ch []
      cellTx := some (some ch) }
  match h1.plugin_handle_raw with
  | none =>
      .failed .MissingRequiredFunctions
        { h1 with host_ctx := { ctx with cellTx := none } }
  | some beh =>
      let out := beh entry sid payload
      let ctx1 := { runActs heap ctx out.acts with cellTx := none }
      match out.ret with
      | none => .failed (.PluginHandleFailed .Err) { h1 with host_ctx := ctx1 }
      | some st =>
          if st = NrStatus.Ok then .awaiting ch { h1 with host_ctx := ctx1 }
          else .failed (.PluginHandleFailed st) { h1 with host_ctx := ctx1 }

end Full

namespace Sid

/-!
Model of `src/crates/nylon-ring-host/src/sid.rs`: block-based session-id
allocation.  `GLOBAL_SID: AtomicU64` hands out blocks of `SID_BLOCK_SIZE`
ids; each thread consumes its block with non-atomic increments.  The `u64`
counters are modelled as `Nat`; a `u64` wrap would require more than
`2 ^ 64` allocated ids in one run.
-/

/-- `SID_BLOCK_SIZE`: number of SIDs allocated per block. -/
def SID_BLOCK_SIZE : Nat := 1000000

/-- A thread's current block (`SidBlock { base, offset }`). -/
structure SidBlock where
  base : Nat
  offset : Nat
deriving DecidableEq, Repr

/-- `next_sid`, seen from one thread: given the global counter and the
thread's block, returns the sid, the new global counter, and the new block.
An exhausted block claims a block by `GLOBAL_SID.fetch_add(SID_BLOCK_SIZE)`,
which returns the counter's old value and stores the sum wrapped to `u64`;
the `sid = block.base + block.offset` addition likewise wraps to `u64`.
The `block.offset += 1` increment cannot wrap: it only runs under the guard
`offset < SID_BLOCK_SIZE`, so `offset + 1 ≤ SID_BLOCK_SIZE`. -/
def next_sid (global : Nat) (b : SidBlock) : Nat × Nat × SidBlock :=
  if SID_BLOCK_SIZE ≤ b.offset then
    (global, (global + SID_BLOCK_SIZE) % U64, ⟨global, 1⟩)
  else
    ((b.base + b.offset) % U64, global, ⟨b.base, b.offset + 1⟩)

/-- The process-wide allocator state: the global counter and every thread's
block. -/
structure SidSystem where
  global : Nat
  threads : Nat → SidBlock

/-- The initial state: `GLOBAL_SID = 1`, every thread's block exhausted
(`base = 0, offset = SID_BLOCK_SIZE`). -/
def initSystem : SidSystem :=
  { global := 1, threads := fun _ => ⟨0, SID_BLOCK_SIZE⟩ }

/-- One allocation performed by thread `t`. -/
def step (s : SidSystem) (t : Nat) : Nat × SidSystem :=
  let r := next_sid s.global (s.threads t)
  (r.1,
    { global := r.2.1
      threads := fun u => if u = t then r.2.2 else s.threads u })

/-- The sids produced by a schedule of thread ids, in allocation order. -/
def trace (s : SidSystem) : List Nat → List Nat
  | [] => []
  | t :: ts =>
      let r := step s t
      r.1 :: trace r.2 ts

/-- The sids a block can still hand out: those of `[base + offset,
base + SID_BLOCK_SIZE)` when the block is not exhausted. -/
def inAvail (b : SidBlock) (x : Nat) : Prop :=
  b.offset < SID_BLOCK_SIZE ∧ b.base + b.offset ≤ x ∧ x < b.base + SID_BLOCK_SIZE

/-- Allocator invariant: live blocks lie below the global counter, blocks of
distinct threads are disjoint, and already-allocated sids lie below the
global counter, outside every live block, and are pairwise distinct. -/
def Inv (s : SidSystem) (alloc : List Nat) : Prop :=
  (∀ t, (s.threads t).offset < SID_BLOCK_SIZE →
      (s.threads t).base + SID_BLOCK_SIZE ≤ s.global)
  ∧ (∀ t u, t ≠ u → ∀ x, inAvail (s.threads t) x → ¬ inAvail (s.threads u) x)
  ∧ (∀ x ∈ alloc, x < s.global)
  ∧ (∀ x ∈ alloc, ∀ t, ¬ inAvail (s.threads t) x)
  ∧ alloc.Nodup

end Sid

namespace Callbacks

/-!
Model of `src/crates/nylon-ring-host/src/callbacks.rs`: the FFI callbacks the
host exposes to plugins, including the cross-plugin dispatcher.  Each
callback begins with a `host_ctx` null check, modelled by taking an
`Option CbState`.  The host-context helpers these callbacks call
(`crate::context::{insert_pending, remove_pending, reinsert_pending,
insert_stream_receiver, get_stream_receiver, insert_stream_target,
get_stream_target}` and `ctx.get_plugin`) are not present under `src/`
(`context.rs` there defines a different slab-based context); they are
modelled from the spec below.
-/

/-- One callback invocation a plugin performs while its `handle` runs.  In
this variant `setState` carries the copied byte value, since
`set_state_callback` in `callbacks.rs` copies the inbound view
(`value.as_slice().to_vec()`). -/
inductive CbAct where
  | sendResult (sid : Nat) (status : NrStatus) (payload : Bytes)
  | setState (sid : Nat) (key : String) (value : Bytes)

/-- Everything one plugin `handle` invocation does; `ret = none` means the
plugin panicked after performing `acts`. -/
structure CbOutcome where
  acts : List CbAct
  ret : Option NrStatus

/-- A plugin `handle` entry for the dispatcher model. -/
abbrev CbBeh := String → Nat → Bytes → CbOutcome

/-- A loaded plugin as the dispatcher sees it: its optional `handle`,
`stream_data` and `stream_close` vtable entries. -/
structure Plugin where
  handle : Option CbBeh
  stream_data : Option (Nat → Bytes → NrStatus)
  stream_close : Option (Nat → NrStatus)

/-- The shared host context reachable from the dispatcher callbacks: pending
registry, scratch state, channel queues, the stream-receiver and
stream-target registries, the two thread-local cells
(`CURRENT_UNARY_RESULT`, `CURRENT_UNARY_TX`), a fresh-channel counter, and
the calling thread's view of the sid allocator (`GLOBAL_SID` plus its
thread-local block). -/
structure CbState where
  pending : List (Nat × Pending)
  statePerSid : List (Nat × List (String × Bytes))
  chanMsgs : List (Nat × List Frame)
  streamRecv : List (Nat × Nat)
  streamTarget : List (Nat × Plugin)
  cellR : Option (Option (NrStatus × Bytes))
  cellTx : Option (Option Nat)
  nextChan : Nat
  global : Nat
  block : Sid.SidBlock

/-- Sending one message on a channel appends it to the channel's queue. -/
def chanSend (s : CbState) (ch : Nat) (f : Frame) : CbState :=
  { s with chanMsgs := minsert s.chanMsgs ch ((mfind s.chanMsgs ch).getD [] ++ [f]) }

/-- Modelled from the spec: `crate::context::insert_pending` (missing from
`src/`), the registry operation "register(sid, entry) — insert". -/
def insert_pending (s : CbState) (sid : Nat) (e : Pending) : CbState :=
  { s with pending := minsert s.pending sid e }

/-- Modelled from the spec: `crate::context::remove_pending` (missing from
`src/`), the registry operation "take(sid) → entry? — atomically remove and
return". -/
def remove_pending (s : CbState) (sid : Nat) : Option Pending × CbState :=
  (mfind s.pending sid, { s with pending := merase s.pending sid })

/-- Modelled from the spec: `crate::context::reinsert_pending` (missing from
`src/`), the registry operation "reinsert(sid, entry) — insert for stream
continuation". -/
def reinsert_pending (s : CbState) (sid : Nat) (e : Pending) : CbState :=
  { s with pending := minsert s.pending sid e }

/-- Modelled from the spec: `crate::context::insert_stream_receiver`
(missing from `src/`), "stores the receiver in the stream-receiver
registry". -/
def insert_stream_receiver (s : CbState) (sid : Nat) (ch : Nat) : CbState :=
  { s with streamRecv := minsert s.streamRecv sid ch }

/-- Modelled from the spec: `crate::context::get_stream_receiver` (missing
from `src/`), lookup in the stream-receiver registry. -/
def get_stream_receiver (s : CbState) (sid : Nat) : Option Nat :=
  mfind s.streamRecv sid

/-- Modelled from the spec: `crate::context::insert_stream_target` (missing
from `src/`), "the target plugin handle in the stream-target registry". -/
def insert_stream_target (s : CbState) (sid : Nat) (p : Plugin) : CbState :=
  { s with streamTarget := minsert s.streamTarget sid p }

/-- Modelled from the spec: `crate::context::get_stream_target` (missing
from `src/`), lookup in the stream-target registry. -/
def get_stream_target (s : CbState) (sid : Nat) : Option Plugin :=
  mfind s.streamTarget sid

/-- Modelled from the spec: `Default::default()` for
`NrTuple<NrStatus, NrVec<u8>>`.  The `Default` instance for `NrStatus` is in
the `nylon-ring` revision `callbacks.rs` builds against, which is missing
from `src/`; the spec calls this value only "a default tuple", modelled here
as the zero-discriminant status (`Ok`) and the empty vector. -/
def defaultStatusVec : NrStatus × Bytes := (NrStatus.Ok, [])

/-- `send_result_vec_callback` in `callbacks.rs`, body after the null guard.
Resolution order: the direct-result slot (`CURRENT_UNARY_RESULT`) — written
whenever the cell pointer is non-null — then the oneshot slot
(`CURRENT_UNARY_TX`), then the pending registry.  This variant performs no
scratch-state clearing. -/
def sendResultCore (s : CbState) (sid : Nat) (status : NrStatus)
    (payload : Bytes) : CbState :=
  match s.cellR with
  | some _ => { s with cellR := some (some (status, payload)) }
  | none =>
      match s.cellTx with
      | some (some ch) => chanSend { s with cellTx := some none } ch ⟨status, payload⟩
      | _ =>
          match remove_pending s sid with
          | (some (Pending.Unary ch), s1) => chanSend s1 ch ⟨status, payload⟩
          | (some (Pending.Stream ch), s1) =>
              let s2 := chanSend s1 ch ⟨status, payload⟩
              if status.isFinished then s2
              else reinsert_pending s2 sid (Pending.Stream ch)
          | (none, _) => s

/-- `set_state_callback` in `callbacks.rs`, body after the null guard: copies
the inbound bytes (the act already carries the copied value) and returns
empty bytes. -/
def setStateCore (s : CbState) (sid : Nat) (key : String) (value : Bytes) :
    Bytes × CbState :=
  let inner := (mfind s.statePerSid sid).getD []
  ([], { s with statePerSid := minsert s.statePerSid sid (minsert inner key value) })

/-- `get_state_callback` in `callbacks.rs`, body after the null guard. -/
def getStateCore (s : CbState) (sid : Nat) (key : String) : Bytes :=
  match mfind s.statePerSid sid with
  | some inner => (mfind inner key).getD []
  | none => []

/-- Effect of one plugin callback on the dispatcher's shared context. -/
def runCbAct (s : CbState) : CbAct → CbState
  | .sendResult sid st p => sendResultCore s sid st p
  | .setState sid k v => (setStateCore s sid k v).2

/-- Effect of a sequence of plugin callbacks. -/
def runCbActs (s : CbState) (acts : List CbAct) : CbState :=
  acts.foldl runCbAct s

/-- `send_result_vec_callback` with its `host_ctx` null guard: a null
context returns immediately without touching any state. -/
def send_result_vec_callback (octx : Option CbState) (sid : Nat)
    (status : NrStatus) (payload : Bytes) : Option CbState :=
  match octx with
  | none => none
  | some s => some (sendResultCore s sid status payload)

/-- `set_state_callback` with its null guard: a null context returns empty
bytes without touching any state. -/
def set_state_callback (octx : Option CbState) (sid : Nat) (key : String)
    (value : Bytes) : Bytes × Option CbState :=
  match octx with
  | none => ([], none)
  | some s =>
      let r := setStateCore s sid key value
      (r.1, some r.2)

/-- `get_state_callback` with its null guard: a null context returns empty
bytes. -/
def get_state_callback (octx : Option CbState) (sid : Nat) (key : String) :
    Bytes :=
  match octx with
  | none => []
  | some s => getStateCore s sid key

/-- Result of `dispatch_sync` / `dispatch_fast`: the returned
`(status, bytes)` tuple with the updated context; `panicked` records an
untrapped plugin panic unwinding out of the dispatcher; `blocked` records
`dispatch_sync` blocking forever on a plugin that completes
asynchronously. -/
inductive DispatchResult where
  | ret (status : NrStatus) (data : Bytes) (s : Option CbState)
  | panicked (s : Option CbState)
  | blocked (s : Option CbState)

/-- The context carried by a dispatch result. -/
def DispatchResult.state : DispatchResult → Option CbState
  | .ret _ _ s => s
  | .panicked s => s
  | .blocked s => s

/-- The `(status, bytes)` tuple a dispatch returned, if it returned. -/
def DispatchResult.retVal : DispatchResult → Option (NrStatus × Bytes)
  | .ret st d _ => some (st, d)
  | .panicked _ => none
  | .blocked _ => none

/-- `dispatch_sync` in `callbacks.rs`: resolves the target plugin (the
plugin registry `ctx.get_plugin` is missing from `src/` and modelled from
the spec as the `plugins` lookup), allocates a sid, registers a `Unary`
pending entry in the shared context, invokes the target's `handle`, removes
the entry and returns `(status, empty)` on a synchronous non-`Ok` status,
and otherwise blocks on the oneshot receiver. -/
def dispatch_sync (plugins : String → Option Plugin) (octx : Option CbState)
    (target entry : String) (payload : Bytes) : DispatchResult :=
  match octx with
  | none => .ret defaultStatusVec.1 defaultStatusVec.2 none
  | some s =>
      match plugins target with
      | none => .ret .Err [] (some s)
      | some p =>
          match p.handle with
          | none => .ret .Err [] (some s)
          | some beh =>
              let r := Sid.next_sid s.global s.block
              let sid := r.1
              let ch := s.nextChan
              let s1 :=
                insert_pending
                  { s with global := r.2.1, block := r.2.2, nextChan := ch + 1
                           chanMsgs := minsert s.chanMsgs ch [] }
                  sid (Pending.Unary ch)
              let out := beh entry sid payload
              let s2 := runCbActs s1 out.acts
              match out.ret with
              | none => .panicked (some s2)
              | some st =>
                  if st = NrStatus.Ok then
                    match mfind s2.chanMsgs ch with
                    | some (f :: _) => .ret f.status f.data (some s2)
                    | _ =>
                        if (mfind s2.pending sid).isSome then .blocked (some s2)
                        else .ret .Err [] (some s2)
                  else .ret st [] (some (remove_pending s2 sid).2)

/-- `dispatch_fast` in `callbacks.rs`: saves the calling thread's
direct-result cell, publishes a fresh stack slot, invokes the target's
`handle` synchronously, restores the saved cell value, and reads the slot.
A plugin panic unwinds before the restore. -/
def dispatch_fast (plugins : String → Option Plugin) (octx : Option CbState)
    (target entry : String) (payload : Bytes) : DispatchResult :=
  match octx with
  | none => .ret defaultStatusVec.1 defaultStatusVec.2 none
  | some s =>
      match plugins target with
      | none => .ret .Err [] (some s)
      | some p =>
          match p.handle with
          | none => .ret .Err [] (some s)
          | some beh =>
              let r := Sid.next_sid s.global s.block
              let sid := r.1
              let s1 := { s with global := r.2.1, block := r.2.2 }
              let prev := s1.cellR
              let s2 := { s1 with cellR := some none }
              let out := beh entry sid payload
              let s3 := runCbActs s2 out.acts
              match out.ret with
              | none => .panicked (some s3)
              | some st =>
                  let slotVal := s3.cellR.getD none
                  let s4 := { s3 with cellR := prev }
                  if st = NrStatus.Ok then
                    match slotVal with
                    | some (st2, data) => .ret st2 data (some s4)
                    | none => .ret .Err [] (some s4)
                  else .ret st [] (some s4)

/-- Result of `dispatch_async`: the synchronous status, or an untrapped
plugin panic. -/
inductive AsyncResult where
  | ret (status : NrStatus) (s : Option CbState)
  | panicked (s : Option CbState)

/-- `dispatch_async` in `callbacks.rs`: fire-and-forget — allocates a sid but
registers nothing; returns the target's synchronous status. -/
def dispatch_async (plugins : String → Option Plugin) (octx : Option CbState)
    (target entry : String) (payload : Bytes) : AsyncResult :=
  match octx with
  | none => .ret .Err none
  | some s =>
      match plugins target with
      | none => .ret .Err (some s)
      | some p =>
          match p.handle with
          | none => .ret .Err (some s)
          | some beh =>
              let r := Sid.next_sid s.global s.block
              let sid := r.1
              let s1 := { s with global := r.2.1, block := r.2.2 }
              let out := beh entry sid payload
              let s2 := runCbActs s1 out.acts
              match out.ret with
              | none => .panicked (some s2)
              | some st => .ret st (some s2)

/-- Result of `dispatch_stream`: the `(status, sid)` tuple, or an untrapped
plugin panic. -/
inductive StreamOpenResult where
  | ret (status : NrStatus) (sid : Nat) (s : Option CbState)
  | panicked (s : Option CbState)

/-- `dispatch_stream` in `callbacks.rs`: allocates a sid, creates a frame
channel, registers its sender as a `Stream` pending entry, parks the
receiver in the stream-receiver registry and the target plugin in the
stream-target registry, then invokes `handle` and returns
`(status, sid)`. -/
def dispatch_stream (plugins : String → Option Plugin) (octx : Option CbState)
    (target entry : String) (payload : Bytes) : StreamOpenResult :=
  match octx with
  | none => .ret .Err 0 none
  | some s =>
      match plugins target with
      | none => .ret .Err 0 (some s)
      | some p =>
          match p.handle with
          | none => .ret .Err 0 (some s)
          | some beh =>
              let r := Sid.next_sid s.global s.block
              let sid := r.1
              let ch := s.nextChan
              let s1 :=
                { s with global := r.2.1, block := r.2.2, nextChan := ch + 1
                         chanMsgs := minsert s.chanMsgs ch [] }
              let s2 :=
                insert_stream_target
                  (insert_stream_receiver (insert_pending s1 sid (Pending.Stream ch))
                    sid ch)
                  sid p
              let out := beh entry sid payload
              let s3 := runCbActs s2 out.acts
              match out.ret with
              | none => .panicked (some s3)
              | some st => .ret st sid (some s3)

/-- Result of `stream_read`: the received frame (or an error tuple), or a
blocking `recv` on a stream whose producer has not yet sent. -/
inductive ReadResult where
  | ret (status : NrStatus) (data : Bytes) (s : Option CbState)
  | blocked (s : Option CbState)

/-- `stream_read` in `callbacks.rs`: a blocking `recv` on the stored
receiver.  A missing receiver yields `Invalid`; an empty channel whose
sender is gone (no pending entry) yields `Err`; otherwise the next frame is
consumed. -/
def stream_read (octx : Option CbState) (sid : Nat) : ReadResult :=
  match octx with
  | none => .ret .Err [] none
  | some s =>
      match get_stream_receiver s sid with
      | some ch =>
          match mfind s.chanMsgs ch with
          | some (f :: rest) =>
              .ret f.status f.data (some { s with chanMsgs := minsert s.chanMsgs ch rest })
          | _ =>
              if (mfind s.pending sid).isSome then .blocked (some s)
              else .ret .Err [] (some s)
      | none => .ret .Invalid [] (some s)

/-- `stream_write` in `callbacks.rs`: forwards the data to the stream's
target plugin via its `stream_data` entry; `Unsupported` when the entry is
absent, `Err` when the target is unknown (or the context null). -/
def stream_write (octx : Option CbState) (sid : Nat) (data : Bytes) :
    NrStatus × Option CbState :=
  match octx with
  | none => (.Err, none)
  | some s =>
      match get_stream_target s sid with
      | some p =>
          match p.stream_data with
          | some f => (f sid data, some s)
          | none => (.Unsupported, some s)
      | none => (.Err, some s)

/-- `stream_close` in `callbacks.rs`: invokes the stream target's
`stream_close` entry; `Unsupported` when the entry is absent, `Err` when the
target is unknown (or the context null). -/
def stream_close (octx : Option CbState) (sid : Nat) : NrStatus × Option CbState :=
  match octx with
  | none => (.Err, none)
  | some s =>
      match get_stream_target s sid with
      | some p =>
          match p.stream_close with
          | some f => (f sid, some s)
          | none => (.Unsupported, some s)
      | none => (.Err, some s)

end Callbacks

/-!
Concrete plugin behaviours, states and predicates used by the theorems and
their witnesses.
-/

namespace Crates

/-- Whether a `send_result` delivery is terminal for its sid at the given
state: any delivery through the thread-local oneshot slot or to a `Unary`
pending entry, or a stream frame whose status is terminal. -/
def terminalDelivery (s : HostState) (sid : Nat) (status : NrStatus) : Bool :=
  match s.cellTx with
  | some (some _) => true
  | _ =>
      match mfind s.pending sid with
      | some (Pending.Unary _) => true
      | some (Pending.Stream _) => status.isFinished
      | none => false

/-- Whether a sequence of plugin callbacks contains no `set_state` for the
given sid. -/
def avoidsSetState (acts : List PluginAct) (sid : Nat) : Bool :=
  acts.all fun a =>
    match a with
    | .setState sid2 _ _ => decide (sid2 ≠ sid)
    | _ => true

/-- A plugin whose `handle` does nothing and returns `Ok`. -/
def noopBeh : PluginBeh := fun _ _ _ => ⟨[], some NrStatus.Ok⟩

/-- A plugin whose `handle` does nothing and returns `Invalid`
synchronously. -/
def invalidBeh : PluginBeh := fun _ _ _ => ⟨[], some NrStatus.Invalid⟩

/-- A plugin whose `handle` panics without calling back. -/
def panicBeh : PluginBeh := fun _ _ _ => ⟨[], none⟩

/-- The `"burst"` plugin of the spec scenario: for its sid it emits five
`Ok` frames and then `StreamEnd`, returning `Ok` synchronously. -/
def burstBeh : PluginBeh := fun _ sid _ =>
  ⟨[.sendResult sid .Ok [0], .sendResult sid .Ok [1], .sendResult sid .Ok [2],
    .sendResult sid .Ok [3], .sendResult sid .Ok [4],
    .sendResult sid .StreamEnd []], some NrStatus.Ok⟩

/-- The six frames the burst scenario delivers. -/
def burstFrames : List Frame :=
  [⟨.Ok, [0]⟩, ⟨.Ok, [1]⟩, ⟨.Ok, [2]⟩, ⟨.Ok, [3]⟩, ⟨.Ok, [4]⟩, ⟨.StreamEnd, []⟩]

/-- The sid and receiver channel of a successful `call_stream`. -/
def StreamCallResult.opening : StreamCallResult → Option (Nat × Nat)
  | .opened sid ch _ => some (sid, ch)
  | .failed _ _ => none

/-- An empty host context. -/
def emptyState : HostState :=
  { pending := [], statePerSid := [], chanMsgs := [], nextChan := 0, cellTx := none }

/-- A concrete host context with one unary pending entry: sid 5 waiting on
oneshot channel 3. -/
def unaryState : HostState :=
  { pending := [(5, Pending.Unary 3)], statePerSid := [], chanMsgs := [(3, [])]
    nextChan := 4, cellTx := none }

/-- A concrete host context with one stream pending entry: sid 5 sending on
channel 3, with scratch state stored for sid 5. -/
def streamState : HostState :=
  { pending := [(5, Pending.Stream 3)], statePerSid := [(5, [("k", 0)])]
    chanMsgs := [(3, [])], nextChan := 4, cellTx := none }

end Crates

namespace Full

/-- An empty full-host context. -/
def emptyState : HostState :=
  { pending := [], statePerSid := [], chanMsgs := [], nextChan := 0, cellTx := none }

/-- A full host about to run `call_raw_internal` for sid 1: the caller
(`call_raw`) has registered the `Unary` pending entry and created the
oneshot channel; the plugin's `handle_raw` panics. -/
def hostWithPanicPending : NylonRingHost :=
  { plugin_handle_raw := some Crates.panicBeh
    host_ctx :=
      { pending := [(1, Pending.Unary 0)], statePerSid := [], chanMsgs := [(0, [])]
        nextChan := 1, cellTx := none }
    next_sid := 2 }

/-- Like `hostWithPanicPending`, but the plugin's `handle_raw` returns
`Invalid` synchronously. -/
def hostWithInvalidPending : NylonRingHost :=
  { plugin_handle_raw := some Crates.invalidBeh
    host_ctx :=
      { pending := [(1, Pending.Unary 0)], statePerSid := [], chanMsgs := [(0, [])]
        nextChan := 1, cellTx := none }
    next_sid := 2 }

end Full

/-- A caller-owned buffer holding `[1, 2, 3]` in buffer 0 at the moment
`set_state` is invoked. -/
def heapBefore : Nat → Bytes := fun b => if b = 0 then [1, 2, 3] else []

/-- The same buffer after the caller overwrote it with `[9, 9, 9]` once
`set_state` returned. -/
def heapAfter : Nat → Bytes := fun b => if b = 0 then [9, 9, 9] else []

namespace Callbacks

/-- A dispatcher plugin whose `handle` does nothing and returns `Invalid`
synchronously. -/
def cbInvalidBeh : CbBeh := fun _ _ _ => ⟨[], some NrStatus.Invalid⟩

/-- A dispatcher plugin whose `handle` answers its own sid through the
direct-result slot with `(Ok, [42])` and returns `Ok`. -/
def cbFastBeh : CbBeh := fun _ sid _ =>
  ⟨[.sendResult sid .Ok [42]], some NrStatus.Ok⟩

/-- A loaded plugin exposing `cbInvalidBeh`. -/
def pluginInvalid : Plugin := ⟨some cbInvalidBeh, none, none⟩

/-- A loaded plugin exposing `cbFastBeh`. -/
def pluginFast : Plugin := ⟨some cbFastBeh, none, none⟩

/-- A one-entry plugin registry mapping `"B"` to `pluginInvalid`. -/
def regInvalid : String → Option Plugin :=
  fun n => if n = "B" then some pluginInvalid else none

/-- A one-entry plugin registry mapping `"B"` to `pluginFast`. -/
def regFast : String → Option Plugin :=
  fun n => if n = "B" then some pluginFast else none

/-- An empty dispatcher context on a fresh thread: `GLOBAL_SID = 1`, the
thread's block exhausted, and the outer caller's direct-result cell
publishing a slot that currently holds `(Err, [7])`. -/
def ctxWithOuterSlot : CbState :=
  { pending := [], statePerSid := [], chanMsgs := [], streamRecv := []
    streamTarget := [], cellR := some (some (NrStatus.Err, [7])), cellTx := none
    nextChan := 0, global := 1, block := ⟨0, Sid.SID_BLOCK_SIZE⟩ }

/-- An empty dispatcher context with both thread-local cells null. -/
def ctxEmpty : CbState :=
  { pending := [], statePerSid := [], chanMsgs := [], streamRecv := []
    streamTarget := [], cellR := none, cellTx := none
    nextChan := 0, global := 1, block := ⟨0, Sid.SID_BLOCK_SIZE⟩ }

end Callbacks

/-!
Helper lemmas about the association-list map operations.
-/

theorem mfind_merase_self {κ α : Type} [DecidableEq κ] (m : List (κ × α)) (k : κ) :
    mfind (merase m k) k = none := by
  induction m with
  | nil => rfl
  | cons p rest ih =>
      by_cases h : p.1 = k
      · simpa [merase, h] using ih
      · simpa [merase, mfind, h] using ih

theorem mfind_merase_ne {κ α : Type} [DecidableEq κ] (m : List (κ × α)) (k k2 : κ)
    (h : k2 ≠ k) : mfind (merase m k) k2 = mfind m k2 := by
  induction m with
  | nil => rfl
  | cons p rest ih =>
      by_cases hp : p.1 = k
      · simpa [merase, mfind, hp, h, Ne.symm h] using ih
      · by_cases hp2 : p.1 = k2
        · simp [merase, mfind, hp, hp2, h, Ne.symm h]
        · simpa [merase, mfind, hp, hp2] using ih

theorem mfind_minsert_self {κ α : Type} [DecidableEq κ] (m : List (κ × α)) (k : κ)
    (v : α) : mfind (minsert m k v) k = some v := by
  simp [minsert, mfind]

theorem mfind_minsert_ne {κ α : Type} [DecidableEq κ] (m : List (κ × α)) (k k2 : κ)
    (v : α) (h : k2 ≠ k) : mfind (minsert m k v) k2 = mfind m k2 := by
  have : k ≠ k2 := fun hk => h hk.symm
  simp [minsert, mfind, this, mfind_merase_ne m k k2 h]

theorem mfind_merase_none {κ α : Type} [DecidableEq κ] (m : List (κ × α))
    (k k2 : κ) (h : mfind m k2 = none) : mfind (merase m k) k2 = none := by
  by_cases hk : k2 = k
  · simpa [hk] using mfind_merase_self m k
  · simpa [mfind_merase_ne m k k2 hk] using h

/-!
Shape lemmas for the crates-variant `send_result` callback, one per branch of
its resolution order.
-/

theorem crates_send_result_unary_eq (s : Crates.HostState) (sid ch : Nat)
    (st : NrStatus) (p : Bytes)
    (hcell : Crates.engaged s.cellTx = false)
    (hpend : mfind s.pending sid = some (Pending.Unary ch)) :
    Crates.send_result_vec_callback s sid st p =
      { s with
        pending := merase s.pending sid
        statePerSid := merase s.statePerSid sid
        chanMsgs := minsert s.chanMsgs ch ((mfind s.chanMsgs ch).getD [] ++ [⟨st, p⟩]) } := by
  obtain ⟨pend, stp, cm, nc, cell⟩ := s
  rcases cell with _ | cs
  · simp_all [Crates.send_result_vec_callback, Crates.chanSend]
  · rcases cs with _ | c
    · simp_all [Crates.send_result_vec_callback, Crates.chanSend]
    · simp [Crates.engaged] at hcell

theorem crates_send_result_stream_eq (s : Crates.HostState) (sid ch : Nat)
    (st : NrStatus) (p : Bytes)
    (hcell : Crates.engaged s.cellTx = false)
    (hpend : mfind s.pending sid = some (Pending.Stream ch)) :
    Crates.send_result_vec_callback s sid st p =
      (if st.isFinished then
        { s with
          pending := merase s.pending sid
          statePerSid := merase s.statePerSid sid
          chanMsgs := minsert s.chanMsgs ch ((mfind s.chanMsgs ch).getD [] ++ [⟨st, p⟩]) }
      else
        { s with
          pending := minsert (merase s.pending sid) sid (Pending.Stream ch)
          chanMsgs := minsert s.chanMsgs ch ((mfind s.chanMsgs ch).getD [] ++ [⟨st, p⟩]) }) := by
  obtain ⟨pend, stp, cm, nc, cell⟩ := s
  rcases cell with _ | cs
  · by_cases hf : st.isFinished <;>
      simp_all [Crates.send_result_vec_callback, Crates.chanSend]
  · rcases cs with _ | c
    · by_cases hf : st.isFinished <;>
        simp_all [Crates.send_result_vec_callback, Crates.chanSend]
    · simp [Crates.engaged] at hcell

theorem crates_send_result_drop_eq (s : Crates.HostState) (sid : Nat)
    (st : NrStatus) (p : Bytes)
    (hcell : Crates.engaged s.cellTx = false)
    (hpend : mfind s.pending sid = none) :
    Crates.send_result_vec_callback s sid st p = s := by
  obtain ⟨pend, stp, cm, nc, cell⟩ := s
  rcases cell with _ | cs
  · simp_all [Crates.send_result_vec_callback]
  · rcases cs with _ | c
    · simp_all [Crates.send_result_vec_callback]
    · simp [Crates.engaged] at hcell

/-- C1.  A unary pending entry receives exactly one `(status, bytes)` pair
from the first `send_result` delivery for its sid, the entry is consumed,
and every subsequent `send_result` for the same sid finds no pending entry
and leaves the host context entirely unchanged. -/
theorem unary_single_delivery (s : Crates.HostState) (sid ch : Nat)
    (st : NrStatus) (p : Bytes)
    (hcell : Crates.engaged s.cellTx = false)
    (hpend : mfind s.pending sid = some (Pending.Unary ch))
    (hch : mfind s.chanMsgs ch = some []) :
    mfind (Crates.send_result_vec_callback s sid st p).chanMsgs ch = some [⟨st, p⟩]
    ∧ mfind (Crates.send_result_vec_callback s sid st p).pending sid = none
    ∧ ∀ st2 p2,
        Crates.send_result_vec_callback (Crates.send_result_vec_callback s sid st p)
          sid st2 p2 = Crates.send_result_vec_callback s sid st p := by
  rw [crates_send_result_unary_eq s sid ch st p hcell hpend]
  refine ⟨by simp [mfind_minsert_self, hch], by simp [mfind_merase_self], ?_⟩
  intro st2 p2
  exact crates_send_result_drop_eq _ sid st2 p2 hcell (by simp [mfind_merase_self])

/-- Witness for C1 at a concrete host context. -/
theorem unary_single_delivery_witness :
    (Crates.engaged Crates.unaryState.cellTx = false
      ∧ mfind Crates.unaryState.pending 5 = some (Pending.Unary 3)
      ∧ mfind Crates.unaryState.chanMsgs 3 = some [])
    ∧ (mfind (Crates.send_result_vec_callback Crates.unaryState 5 .Ok [1]).chanMsgs 3
        = some [⟨.Ok, [1]⟩]
      ∧ mfind (Crates.send_result_vec_callback Crates.unaryState 5 .Ok [1]).pending 5
        = none
      ∧ ∀ st2 p2,
          Crates.send_result_vec_callback
            (Crates.send_result_vec_callback Crates.unaryState 5 .Ok [1]) 5 st2 p2
          = Crates.send_result_vec_callback Crates.unaryState 5 .Ok [1]) :=
  ⟨⟨rfl, rfl, rfl⟩, unary_single_delivery Crates.unaryState 5 3 .Ok [1] rfl rfl rfl⟩

theorem crates_sendAll_stream (L : List Frame) :
    ∀ (s : Crates.HostState) (sid ch : Nat) (M : List Frame),
      Crates.engaged s.cellTx = false →
      mfind s.pending sid = some (Pending.Stream ch) →
      mfind s.chanMsgs ch = some M →
      (∀ f ∈ L.dropLast, f.status.isFinished = false) →
      mfind (Crates.sendAll s sid L).chanMsgs ch = some (M ++ L)
      ∧ (Crates.sendAll s sid L).cellTx = s.cellTx
      ∧ mfind (Crates.sendAll s sid L).pending sid =
          (match L.getLast? with
           | none => some (Pending.Stream ch)
           | some f => if f.status.isFinished then none
                       else some (Pending.Stream ch)) := by
  induction L with
  | nil =>
      intro s sid ch M hcell hpend hch _
      exact ⟨by simpa [Crates.sendAll] using hch, rfl,
        by simpa [Crates.sendAll] using hpend⟩
  | cons f L2 ih =>
      intro s sid ch M hcell hpend hch hdrop
      have hstep :
          Crates.sendAll s sid (f :: L2) =
            Crates.sendAll (Crates.send_result_vec_callback s sid f.status f.data)
              sid L2 := by
        simp [Crates.sendAll, List.foldl]
      have heq := crates_send_result_stream_eq s sid ch f.status f.data hcell hpend
      cases L2 with
      | nil =>
          by_cases hf : f.status.isFinished
          · rw [hstep, heq, if_pos hf]
            refine ⟨by simp [Crates.sendAll, mfind_minsert_self, hch], rfl, ?_⟩
            simp [Crates.sendAll, mfind_merase_self, hf]
          · rw [hstep, heq, if_neg hf]
            refine ⟨by simp [Crates.sendAll, mfind_minsert_self, hch], rfl, ?_⟩
            simp [Crates.sendAll, mfind_minsert_self, hf]
      | cons g L3 =>
          have hf : f.status.isFinished = false := by
            have : f ∈ (f :: g :: L3).dropLast := by
              simp [List.dropLast]
            exact hdrop f this
          rw [hstep, heq, if_neg (by simp [hf])]
          have ihr := ih
            { s with
              pending := minsert (merase s.pending sid) sid (Pending.Stream ch)
              chanMsgs := minsert s.chanMsgs ch
                ((mfind s.chanMsgs ch).getD [] ++ [⟨f.status, f.data⟩]) }
            sid ch (M ++ [f]) (by simpa using hcell)
            (by simp [mfind_minsert_self])
            (by simp [mfind_minsert_self, hch])
            (by
              intro f2 hf2
              apply hdrop f2
              simp [List.dropLast] at hf2 ⊢
              exact Or.inr hf2)
          refine ⟨?_, by simpa using ihr.2.1, ?_⟩
          · have := ihr.1
            simpa [List.append_assoc] using this
          · have := ihr.2.2
            simpa [List.getLast?_cons_cons] using this

/-- C2.  For a stream opened with `call_stream`, each `send_result` forwards
one frame to the stream receiver in invocation order, reinserting the
`Stream` entry after a non-terminal frame and dropping it after a terminal
one; in particular the burst plugin emitting `Ok` five times and then
`StreamEnd` yields a receiver holding exactly 6 frames whose last status is
`StreamEnd`, with the pending entry gone. -/
theorem stream_frames_in_order :
    (∀ (L : List Frame) (s : Crates.HostState) (sid ch : Nat) (M : List Frame),
      Crates.engaged s.cellTx = false →
      mfind s.pending sid = some (Pending.Stream ch) →
      mfind s.chanMsgs ch = some M →
      (∀ f ∈ L.dropLast, f.status.isFinished = false) →
      mfind (Crates.sendAll s sid L).chanMsgs ch = some (M ++ L)
      ∧ mfind (Crates.sendAll s sid L).pending sid =
          (match L.getLast? with
           | none => some (Pending.Stream ch)
           | some f => if f.status.isFinished then none
                       else some (Pending.Stream ch)))
    ∧ ((Crates.call_stream (Crates.loadedHost (some Crates.burstBeh))
          "burst" []).opening = some (1, 0)
      ∧ mfind ((Crates.call_stream (Crates.loadedHost (some Crates.burstBeh))
          "burst" []).host.host_ctx.chanMsgs) 0 = some Crates.burstFrames
      ∧ Crates.burstFrames.length = 6
      ∧ Crates.burstFrames.getLast? = some ⟨.StreamEnd, []⟩
      ∧ mfind ((Crates.call_stream (Crates.loadedHost (some Crates.burstBeh))
          "burst" []).host.host_ctx.pending) 1 = none) := by
  constructor
  · intro L s sid ch M hcell hpend hch hdrop
    have h := crates_sendAll_stream L s sid ch M hcell hpend hch hdrop
    exact ⟨h.1, h.2.2⟩
  · exact ⟨by decide, by decide, by decide, by decide, by decide⟩

/-- Witness for C2 at a concrete stream state and frame list. -/
theorem stream_frames_in_order_witness :
    (Crates.engaged Crates.streamState.cellTx = false
      ∧ mfind Crates.streamState.pending 5 = some (Pending.Stream 3)
      ∧ mfind Crates.streamState.chanMsgs 3 = some []
      ∧ ∀ f ∈ ([⟨.Ok, [0]⟩, ⟨.StreamEnd, []⟩] : List Frame).dropLast,
          f.status.isFinished = false)
    ∧ (mfind (Crates.sendAll Crates.streamState 5
          [⟨.Ok, [0]⟩, ⟨.StreamEnd, []⟩]).chanMsgs 3
        = some ([] ++ [⟨.Ok, [0]⟩, ⟨.StreamEnd, []⟩])
      ∧ mfind (Crates.sendAll Crates.streamState 5
          [⟨.Ok, [0]⟩, ⟨.StreamEnd, []⟩]).pending 5 =
          (match ([⟨.Ok, [0]⟩, ⟨.StreamEnd, []⟩] : List Frame).getLast? with
           | none => some (Pending.Stream 3)
           | some f => if f.status.isFinished then none
                       else some (Pending.Stream 3))) :=
  ⟨⟨rfl, rfl, rfl, by decide⟩,
    stream_frames_in_order.1 [⟨.Ok, [0]⟩, ⟨.StreamEnd, []⟩] Crates.streamState 5 3 []
      rfl rfl rfl (by decide)⟩

theorem crates_get_state_of_none (heap : Nat → Bytes) (s : Crates.HostState)
    (sid : Nat) (k : String) (h : mfind s.statePerSid sid = none) :
    Crates.get_state_callback heap s sid k = [] := by
  simp [Crates.get_state_callback, h]

theorem crates_send_result_state_none (s : Crates.HostState) (sid sid2 : Nat)
    (st : NrStatus) (p : Bytes) (h : mfind s.statePerSid sid = none) :
    mfind (Crates.send_result_vec_callback s sid2 st p).statePerSid sid = none := by
  obtain ⟨pend, stp, cm, nc, cell⟩ := s
  simp only at h
  rcases cell with _ | cs
  · cases hp : mfind pend sid2 with
    | none => simpa [Crates.send_result_vec_callback, hp] using h
    | some e =>
        cases e with
        | Unary ch =>
            simp [Crates.send_result_vec_callback, hp, Crates.chanSend,
              mfind_merase_none _ _ _ h]
        | Stream ch =>
            by_cases hf : st.isFinished <;>
              simp [Crates.send_result_vec_callback, hp, Crates.chanSend, hf,
                mfind_merase_none _ _ _ h, h]
  · rcases cs with _ | c
    · cases hp : mfind pend sid2 with
      | none => simpa [Crates.send_result_vec_callback, hp] using h
      | some e =>
          cases e with
          | Unary ch =>
              simp [Crates.send_result_vec_callback, hp, Crates.chanSend,
                mfind_merase_none _ _ _ h]
          | Stream ch =>
              by_cases hf : st.isFinished <;>
                simp [Crates.send_result_vec_callback, hp, Crates.chanSend, hf,
                  mfind_merase_none _ _ _ h, h]
    · simp [Crates.send_result_vec_callback, Crates.chanSend,
        mfind_merase_none _ _ _ h]

theorem crates_runActs_state_none (acts : List Crates.PluginAct) :
    ∀ (s : Crates.HostState) (sid : Nat),
      mfind s.statePerSid sid = none →
      Crates.avoidsSetState acts sid = true →
      mfind (Crates.runActs s acts).statePerSid sid = none := by
  induction acts with
  | nil => intro s sid h _; simpa [Crates.runActs] using h
  | cons a rest ih =>
      intro s sid h havoid
      have hrest : Crates.avoidsSetState rest sid = true := by
        simp [Crates.avoidsSetState, List.all_cons] at havoid
        simpa [Crates.avoidsSetState] using havoid.2
      have hstep : mfind (Crates.runAct s a).statePerSid sid = none := by
        cases a with
        | sendResult sid2 st p => exact crates_send_result_state_none s sid sid2 st p h
        | setState sid2 k v =>
            have hne : sid2 ≠ sid := by
              simp [Crates.avoidsSetState, List.all_cons] at havoid
              exact havoid.1
            simpa [Crates.runAct, Crates.set_state_callback,
              mfind_minsert_ne _ sid2 sid _ (Ne.symm hne)] using h
      have : Crates.runActs s (a :: rest) = Crates.runActs (Crates.runAct s a) rest := by
        simp [Crates.runActs, List.foldl]
      rw [this]
      exact ih _ sid hstep hrest

theorem crates_terminal_state_cleared (s : Crates.HostState) (sid : Nat)
    (st : NrStatus) (p : Bytes) (ht : Crates.terminalDelivery s sid st = true) :
    mfind (Crates.send_result_vec_callback s sid st p).statePerSid sid = none := by
  obtain ⟨pend, stp, cm, nc, cell⟩ := s
  rcases cell with _ | cs
  · cases hp : mfind pend sid with
    | none => simp [Crates.terminalDelivery, hp] at ht
    | some e =>
        cases e with
        | Unary ch =>
            simp [Crates.send_result_vec_callback, hp, Crates.chanSend,
              mfind_merase_self]
        | Stream ch =>
            have hf : st.isFinished = true := by
              simpa [Crates.terminalDelivery, hp] using ht
            simp [Crates.send_result_vec_callback, hp, Crates.chanSend, hf,
              mfind_merase_self]
  · rcases cs with _ | c
    · cases hp : mfind pend sid with
      | none => simp [Crates.terminalDelivery, hp] at ht
      | some e =>
          cases e with
          | Unary ch =>
              simp [Crates.send_result_vec_callback, hp, Crates.chanSend,
                mfind_merase_self]
          | Stream ch =>
              have hf : st.isFinished = true := by
                simpa [Crates.terminalDelivery, hp] using ht
              simp [Crates.send_result_vec_callback, hp, Crates.chanSend, hf,
                mfind_merase_self]
    · simp [Crates.send_result_vec_callback, Crates.chanSend, mfind_merase_self]

/-- C3.  When `send_result` delivers a terminal result for a sid — a
delivery through the thread-local oneshot slot, a unary registry delivery,
or a stream frame with status `Err`, `Invalid`, `Unsupported`, or
`StreamEnd` — the scratch state for that sid is cleared: `get_state` returns
empty bytes for every key, and keeps doing so under any later callbacks that
do not `set_state` for that sid. -/
theorem terminal_clears_scratch (s : Crates.HostState) (sid : Nat)
    (st : NrStatus) (p : Bytes)
    (ht : Crates.terminalDelivery s sid st = true) :
    (∀ heap k,
      Crates.get_state_callback heap (Crates.send_result_vec_callback s sid st p)
        sid k = [])
    ∧ ∀ acts, Crates.avoidsSetState acts sid = true →
        ∀ heap k,
          Crates.get_state_callback heap
            (Crates.runActs (Crates.send_result_vec_callback s sid st p) acts)
            sid k = [] := by
  have hcore := crates_terminal_state_cleared s sid st p ht
  constructor
  · intro heap k
    exact crates_get_state_of_none heap _ sid k hcore
  · intro acts havoid heap k
    exact crates_get_state_of_none heap _ sid k
      (crates_runActs_state_none acts _ sid hcore havoid)

/-- Witness for C3: a terminal stream frame for sid 5 clears its stored
scratch entry. -/
theorem terminal_clears_scratch_witness :
    Crates.terminalDelivery Crates.streamState 5 .StreamEnd = true
    ∧ (∀ heap k,
        Crates.get_state_callback heap
          (Crates.send_result_vec_callback Crates.streamState 5 .StreamEnd [])
          5 k = [])
    ∧ ∀ heap k,
        Crates.get_state_callback heap
          (Crates.runActs
            (Crates.send_result_vec_callback Crates.streamState 5 .StreamEnd [])
            [.setState 9 "a" 1]) 5 k = [] :=
  ⟨by decide,
    (terminal_clears_scratch Crates.streamState 5 .StreamEnd [] (by decide)).1,
    fun heap k =>
      (terminal_clears_scratch Crates.streamState 5 .StreamEnd [] (by decide)).2
        [.setState 9 "a" 1] (by decide) heap k⟩

/-- C4.  Every operation that inserts a pending-registry entry — `call` and
`call_stream` (crates host), `call_raw` via `call_raw_internal` (full host),
and `dispatch_sync` (dispatcher) — removes the entry for the allocated sid
before returning when the plugin's `handle` returns a non-`Ok` status
synchronously, surfacing the status as `PluginHandleFailed(status)` (for the
host-façade operations) or as the returned status tuple (for the FFI-level
`dispatch_sync`), and leaves no entry for that sid in the registry. -/
theorem registry_cleanup_on_sync_error :
    (∀ (h : Crates.NylonRingHost) (entry : String) (payload : Bytes)
        (beh : Crates.PluginBeh) (st : NrStatus),
      h.plugin_handle = some beh →
      (beh entry h.next_sid payload).ret = some st →
      st ≠ NrStatus.Ok →
      (Crates.call h entry payload).errOf = some (.PluginHandleFailed st)
      ∧ mfind (Crates.call h entry payload).host.host_ctx.pending h.next_sid = none)
    ∧ (∀ (h : Crates.NylonRingHost) (entry : String) (payload : Bytes)
        (beh : Crates.PluginBeh) (st : NrStatus),
      h.plugin_handle = some beh →
      (beh entry h.next_sid payload).ret = some st →
      st ≠ NrStatus.Ok →
      (Crates.call_stream h entry payload).errOf = some (.PluginHandleFailed st)
      ∧ mfind (Crates.call_stream h entry payload).host.host_ctx.pending
          h.next_sid = none)
    ∧ (∀ (heap : Nat → Bytes) (h : Full.NylonRingHost) (sid : Nat)
        (entry : String) (payload : Bytes) (beh : Crates.PluginBeh)
        (st : NrStatus),
      h.plugin_handle_raw = some beh →
      (beh entry sid payload).ret = some st →
      st ≠ NrStatus.Ok →
      (Full.call_raw_internal heap h sid entry payload).1
          = .error (.PluginHandleFailed st)
      ∧ mfind (Full.call_raw_internal heap h sid entry payload).2.host_ctx.pending
          sid = none)
    ∧ (∀ (plugins : String → Option Callbacks.Plugin) (s : Callbacks.CbState)
        (target entry : String) (payload : Bytes) (p : Callbacks.Plugin)
        (beh : Callbacks.CbBeh) (st : NrStatus),
      plugins target = some p →
      p.handle = some beh →
      (beh entry (Sid.next_sid s.global s.block).1 payload).ret = some st →
      st ≠ NrStatus.Ok →
      (Callbacks.dispatch_sync plugins (some s) target entry payload).retVal
          = some (st, [])
      ∧ (Callbacks.dispatch_sync plugins (some s) target entry payload).state.map
          (fun s2 => mfind s2.pending (Sid.next_sid s.global s.block).1)
          = some none) := by
  refine ⟨?_, ?_, ?_, ?_⟩
  · intro h entry payload beh st hbeh hret hne
    obtain ⟨ph, ctx, ns⟩ := h
    simp only at hbeh hret
    subst hbeh
    simp [Crates.call, hret, hne, Crates.CallResult.errOf, Crates.CallResult.host,
      mfind_merase_self]
  · intro h entry payload beh st hbeh hret hne
    obtain ⟨ph, ctx, ns⟩ := h
    simp only at hbeh hret
    subst hbeh
    simp [Crates.call_stream, hret, hne, Crates.StreamCallResult.errOf,
      Crates.StreamCallResult.host, mfind_merase_self]
  · intro heap h sid entry payload beh st hbeh hret hne
    obtain ⟨ph, ctx, ns⟩ := h
    simp only at hbeh hret
    subst hbeh
    simp [Full.call_raw_internal, hret, hne, mfind_merase_self]
  · intro plugins s target entry payload p beh st hplug hh hret hne
    simp [Callbacks.dispatch_sync, hplug, hh, hret, hne,
      Callbacks.DispatchResult.retVal, Callbacks.DispatchResult.state,
      Callbacks.remove_pending, mfind_merase_self]

/-- Witness for C4: plugins returning `Invalid` synchronously, on concrete
hosts and a concrete dispatcher context. -/
theorem registry_cleanup_on_sync_error_witness :
    ((Crates.loadedHost (some Crates.invalidBeh)).plugin_handle
        = some Crates.invalidBeh
      ∧ (Crates.invalidBeh "e" 1 []).ret = some NrStatus.Invalid
      ∧ NrStatus.Invalid ≠ NrStatus.Ok)
    ∧ ((Crates.call (Crates.loadedHost (some Crates.invalidBeh)) "e" []).errOf
        = some (.PluginHandleFailed .Invalid)
      ∧ mfind (Crates.call (Crates.loadedHost (some Crates.invalidBeh))
          "e" []).host.host_ctx.pending 1 = none)
    ∧ ((Crates.call_stream (Crates.loadedHost (some Crates.invalidBeh))
          "e" []).errOf = some (.PluginHandleFailed .Invalid)
      ∧ mfind (Crates.call_stream (Crates.loadedHost (some Crates.invalidBeh))
          "e" []).host.host_ctx.pending 1 = none)
    ∧ ((Full.call_raw_internal heapBefore Full.hostWithInvalidPending 1 "e" []).1
        = .error (.PluginHandleFailed .Invalid)
      ∧ mfind (Full.call_raw_internal heapBefore Full.hostWithInvalidPending
          1 "e" []).2.host_ctx.pending 1 = none)
    ∧ ((Callbacks.dispatch_sync Callbacks.regInvalid (some Callbacks.ctxEmpty)
          "B" "e" []).retVal = some (.Invalid, [])
      ∧ (Callbacks.dispatch_sync Callbacks.regInvalid (some Callbacks.ctxEmpty)
          "B" "e" []).state.map
          (fun s2 => mfind s2.pending
            (Sid.next_sid Callbacks.ctxEmpty.global Callbacks.ctxEmpty.block).1)
          = some none) :=
  ⟨⟨rfl, rfl, by decide⟩,
    registry_cleanup_on_sync_error.1 (Crates.loadedHost (some Crates.invalidBeh))
      "e" [] Crates.invalidBeh .Invalid rfl rfl (by decide),
    registry_cleanup_on_sync_error.2.1 (Crates.loadedHost (some Crates.invalidBeh))
      "e" [] Crates.invalidBeh .Invalid rfl rfl (by decide),
    registry_cleanup_on_sync_error.2.2.1 heapBefore Full.hostWithInvalidPending
      1 "e" [] Crates.invalidBeh .Invalid rfl rfl (by decide),
    registry_cleanup_on_sync_error.2.2.2 Callbacks.regInvalid Callbacks.ctxEmpty
      "B" "e" [] Callbacks.pluginInvalid Callbacks.cbInvalidBeh .Invalid rfl rfl
      rfl (by decide)⟩

/-- C5 (code-bug evidence).  The crates-variant `call` invokes the plugin's
`handle` with no `catch_unwind`: a plugin panic unwinds out of the operation
and the pending entry for the allocated sid (sid 1, channel 0) is left in
the registry.  Its sibling `call_raw_internal` in the full host traps the
same panic, surfaces `PluginHandleFailed(Err)` and removes the entry. -/
theorem crates_call_panic_escapes :
    ((Crates.call (Crates.loadedHost (some Crates.panicBeh)) "echo" []).isPanicked
        = true
      ∧ mfind (Crates.call (Crates.loadedHost (some Crates.panicBeh))
          "echo" []).host.host_ctx.pending 1 = some (Pending.Unary 0))
    ∧ ((Full.call_raw_internal heapBefore Full.hostWithPanicPending 1 "echo" []).1
        = .error (.PluginHandleFailed .Err)
      ∧ mfind (Full.call_raw_internal heapBefore Full.hostWithPanicPending
          1 "echo" []).2.host_ctx.pending 1 = none) :=
  ⟨⟨rfl, rfl⟩, ⟨rfl, rfl⟩⟩

/-- C6 (code-bug evidence).  The crates-variant `set_state_callback` stores
the borrowed `NrBytes` view itself: after the caller's buffer (buffer 0,
holding `[1,2,3]` at `set_state` time) is overwritten to `[9,9,9]`,
`get_state` reads `[9,9,9]` — the stored bytes do not remain valid
independently of the caller's buffer.  The full host's `set_state_callback`
copies at store time, so its `get_state` still returns `[1,2,3]`; both
variants return empty bytes on success. -/
theorem set_state_stores_view_not_copy :
    ((Crates.set_state_callback Crates.emptyState 7 "k" 0).1 = []
      ∧ Crates.get_state_callback heapBefore
          (Crates.set_state_callback Crates.emptyState 7 "k" 0).2 7 "k" = [1, 2, 3]
      ∧ Crates.get_state_callback heapAfter
          (Crates.set_state_callback Crates.emptyState 7 "k" 0).2 7 "k" = [9, 9, 9]
      ∧ [9, 9, 9] ≠ [1, 2, 3])
    ∧ ((Full.set_state_callback heapBefore Full.emptyState 7 "k" 0).1 = []
      ∧ Full.get_state_callback
          (Full.set_state_callback heapBefore Full.emptyState 7 "k" 0).2 7 "k"
          = [1, 2, 3]) :=
  ⟨⟨rfl, rfl, rfl, by decide⟩, ⟨rfl, rfl⟩⟩

/-- C7 counterexample: two distinct host instances both initialise their
`next_sid` counter to 1, so their first allocations return the same sid —
sids are not unique across host instances. -/
theorem sid_duplicate_across_hosts :
    (Crates.loadedHost (some Crates.noopBeh)).allocSid.1
      = (Crates.loadedHost none).allocSid.1
    ∧ Crates.loadedHost (some Crates.noopBeh) ≠ Crates.loadedHost none :=
  ⟨rfl, fun hcontra =>
    Option.noConfusion (congrArg Crates.NylonRingHost.plugin_handle hcontra)⟩

theorem crates_allocs_formula :
    ∀ (n : Nat) (h : Crates.NylonRingHost), h.next_sid < U64 →
      h.allocs n = (h.next_sid + n) % U64 := by
  intro n
  induction n with
  | zero =>
      intro h hlt
      simp [Crates.NylonRingHost.allocs, Crates.NylonRingHost.allocSid,
        Nat.mod_eq_of_lt hlt]
  | succ n ih =>
      intro h hlt
      have hpos : 0 < U64 := by norm_num [U64]
      have hlt2 : ((h.next_sid + 1) % U64) < U64 := Nat.mod_lt _ hpos
      have := ih { h with next_sid := (h.next_sid + 1) % U64 } hlt2
      calc h.allocs (n + 1)
          = ({ h with next_sid := (h.next_sid + 1) % U64 } :
              Crates.NylonRingHost).allocs n := by
            simp [Crates.NylonRingHost.allocs, Crates.NylonRingHost.allocSid]
        _ = ((h.next_sid + 1) % U64 + n) % U64 := this
        _ = (h.next_sid + (n + 1)) % U64 := by
            rw [Nat.mod_add_mod]
            ring_nf

theorem sid_step_preserves (s : Sid.SidSystem) (alloc : List Nat) (t : Nat)
    (hInv : Sid.Inv s alloc)
    (hgB : s.global + Sid.SID_BLOCK_SIZE < U64) :
    Sid.Inv (Sid.step s t).2 ((Sid.step s t).1 :: alloc) := by
  obtain ⟨h1, h2, h3, h4, h5⟩ := hInv
  have hBpos : 0 < Sid.SID_BLOCK_SIZE := by norm_num [Sid.SID_BLOCK_SIZE]
  by_cases hex : Sid.SID_BLOCK_SIZE ≤ (s.threads t).offset
  · -- exhausted block: claim [global, global + SID_BLOCK_SIZE); the counter
    -- stays below U64, so the u64 wrap of fetch_add is the identity here
    have hstep : Sid.step s t =
        (s.global,
          { global := s.global + Sid.SID_BLOCK_SIZE
            threads := fun u => if u = t then ⟨s.global, 1⟩ else s.threads u }) := by
      simp [Sid.step, Sid.next_sid, hex, Nat.mod_eq_of_lt hgB]
    rw [hstep]
    simp only [Sid.Inv]
    have hnew : ∀ x, Sid.inAvail ⟨s.global, 1⟩ x →
        s.global + 1 ≤ x ∧ x < s.global + Sid.SID_BLOCK_SIZE := by
      intro x hx
      obtain ⟨_, hb, hc⟩ := hx
      exact ⟨hb, hc⟩
    have hold : ∀ u, u ≠ t → ∀ x, Sid.inAvail (s.threads u) x → x < s.global := by
      intro u _ x hx
      obtain ⟨ha, _, hc⟩ := hx
      have := h1 u ha
      omega
    refine ⟨?_, ?_, ?_, ?_, ?_⟩
    · intro u hu
      by_cases hut : u = t
      · rw [if_pos hut]
      · rw [if_neg hut] at hu ⊢
        exact le_trans (h1 u hu) (Nat.le_add_right _ _)
    · intro u v huv x hx hcon
      by_cases hut : u = t
      · rw [if_pos hut] at hx
        by_cases hvt : v = t
        · exact huv (hut.trans hvt.symm)
        · rw [if_neg hvt] at hcon
          have hl := (hnew x hx).1
          have hr := hold v hvt x hcon
          omega
      · rw [if_neg hut] at hx
        by_cases hvt : v = t
        · rw [if_pos hvt] at hcon
          have hl := (hnew x hcon).1
          have hr := hold u hut x hx
          omega
        · rw [if_neg hvt] at hcon
          exact h2 u v huv x hx hcon
    · intro x hx
      rcases List.mem_cons.mp hx with hx | hx
      · subst hx; omega
      · have := h3 x hx; omega
    · intro x hx u
      rcases List.mem_cons.mp hx with hx | hx
      · subst hx
        by_cases hut : u = t
        · rw [if_pos hut]
          intro hcon
          have := (hnew _ hcon).1
          omega
        · rw [if_neg hut]
          intro hcon
          have := hold u hut _ hcon
          omega
      · by_cases hut : u = t
        · rw [if_pos hut]
          intro hcon
          have := (hnew _ hcon).1
          have := h3 x hx
          omega
        · rw [if_neg hut]
          exact h4 x hx u
    · refine List.nodup_cons.mpr ⟨?_, h5⟩
      intro hmem
      have := h3 _ hmem
      omega
  · -- live block: hand out base + offset, which lies below the global
    -- counter and hence below U64, so the u64 wrap of the sum is the identity
    push_neg at hex
    have hbo : (s.threads t).base + (s.threads t).offset < U64 := by
      have := h1 t hex
      omega
    have hstep : Sid.step s t =
        ((s.threads t).base + (s.threads t).offset,
          { global := s.global
            threads := fun u => if u = t then
              ⟨(s.threads t).base, (s.threads t).offset + 1⟩ else s.threads u }) := by
      simp [Sid.step, Sid.next_sid, Nat.not_le.mpr hex, Nat.mod_eq_of_lt hbo]
    have hsidav : Sid.inAvail (s.threads t)
        ((s.threads t).base + (s.threads t).offset) :=
      ⟨hex, le_refl _, by omega⟩
    have hsub : ∀ u x,
        Sid.inAvail (if u = t then
          (⟨(s.threads t).base, (s.threads t).offset + 1⟩ : Sid.SidBlock)
          else s.threads u) x → Sid.inAvail (s.threads u) x := by
      intro u x hx
      by_cases hut : u = t
      · rw [if_pos hut] at hx
        obtain ⟨ha, hb, hc⟩ := hx
        dsimp only at ha hb hc
        rw [hut]
        exact ⟨by omega, by omega, by omega⟩
      · rwa [if_neg hut] at hx
    rw [hstep]
    simp only [Sid.Inv]
    refine ⟨?_, ?_, ?_, ?_, ?_⟩
    · intro u hu
      by_cases hut : u = t
      · rw [if_pos hut] at hu ⊢
        dsimp only at hu ⊢
        exact h1 t (by omega)
      · rw [if_neg hut] at hu ⊢
        exact h1 u hu
    · intro u v huv x hx hcon
      exact h2 u v huv x (hsub u x hx) (hsub v x hcon)
    · intro x hx
      rcases List.mem_cons.mp hx with hx | hx
      · subst hx
        have := h1 t hex
        omega
      · exact h3 x hx
    · intro x hx u
      rcases List.mem_cons.mp hx with hx | hx
      · subst hx
        by_cases hut : u = t
        · rw [if_pos hut]
          intro hcon
          obtain ⟨_, hb, _⟩ := hcon
          dsimp only at hb
          omega
        · rw [if_neg hut]
          exact h2 t u (fun he => hut he.symm) _ hsidav
      · intro hcon
        exact h4 x hx u (hsub u x hcon)
    · refine List.nodup_cons.mpr ⟨?_, h5⟩
      intro hmem
      exact h4 _ hmem t hsidav

theorem sid_trace_nodup_aux :
    ∀ (sched : List Nat) (s : Sid.SidSystem) (alloc : List Nat),
      Sid.Inv s alloc →
      s.global + Sid.SID_BLOCK_SIZE * sched.length < U64 →
      (Sid.trace s sched).Nodup ∧ ∀ x ∈ Sid.trace s sched, x ∉ alloc := by
  intro sched
  induction sched with
  | nil => intro s alloc _ _; simp [Sid.trace]
  | cons t ts ih =>
      intro s alloc hInv hbud
      simp only [List.length_cons, Sid.SID_BLOCK_SIZE] at hbud
      have hgB : s.global + Sid.SID_BLOCK_SIZE < U64 := by
        simp only [Sid.SID_BLOCK_SIZE]
        omega
      have hglob : (Sid.step s t).2.global ≤ s.global + Sid.SID_BLOCK_SIZE := by
        by_cases hex : Sid.SID_BLOCK_SIZE ≤ (s.threads t).offset
        · simp [Sid.step, Sid.next_sid, hex, Nat.mod_eq_of_lt hgB]
        · simp only [Sid.step, Sid.next_sid, if_neg hex]
          omega
      have hbud2 :
          (Sid.step s t).2.global + Sid.SID_BLOCK_SIZE * ts.length < U64 := by
        simp only [Sid.SID_BLOCK_SIZE] at hglob ⊢
        omega
      have hpres := sid_step_preserves s alloc t hInv hgB
      obtain ⟨hnd, hdisj⟩ :=
        ih (Sid.step s t).2 ((Sid.step s t).1 :: alloc) hpres hbud2
      have hsid_not : (Sid.step s t).1 ∉ alloc :=
        (List.nodup_cons.mp hpres.2.2.2.2).1
      constructor
      · rw [Sid.trace]
        refine List.nodup_cons.mpr ⟨?_, hnd⟩
        intro hmem
        exact (hdisj _ hmem) (List.mem_cons_self _ _)
      · intro x hx
        rw [Sid.trace] at hx
        rcases List.mem_cons.mp hx with hx | hx
        · subst hx; exact hsid_not
        · intro hmem
          exact (hdisj x hx) (List.mem_cons_of_mem _ hmem)

theorem sid_init_inv : Sid.Inv Sid.initSystem [] := by
  refine ⟨?_, ?_, ?_, ?_, ?_⟩
  · intro t ht
    simp [Sid.initSystem] at ht
  · intro t u _ x hx
    simp [Sid.initSystem, Sid.inAvail] at hx
  · intro x hx; simp at hx
  · intro x hx; simp at hx
  · exact List.nodup_nil

/-- C7 (amended).  Sid uniqueness holds per allocator and within one `u64`
counter period: allocations through one host instance's `next_sid` counter
are pairwise distinct for any two allocation indices below `2 ^ 64`, and the
process-wide block allocator `next_sid` of `sid.rs` yields pairwise distinct
sids across all threads under any interleaving in which the u64 block
counter `GLOBAL_SID` does not wrap (the run claims fewer than
`(2 ^ 64 - 1) / SID_BLOCK_SIZE` blocks); but two distinct host instances can
return equal sids (`sid_duplicate_across_hosts`). -/
theorem sid_unique_per_instance_and_allocator :
    (∀ (b : Option Crates.PluginBeh) (i j : Nat),
      i < U64 → j < U64 → i ≠ j →
      (Crates.loadedHost b).allocs i ≠ (Crates.loadedHost b).allocs j)
    ∧ ∀ sched : List Nat,
        1 + Sid.SID_BLOCK_SIZE * sched.length < U64 →
        (Sid.trace Sid.initSystem sched).Nodup := by
  constructor
  · intro b i j hi hj hij
    have h1 : (Crates.loadedHost b).next_sid = 1 := rfl
    have hlt : (Crates.loadedHost b).next_sid < U64 := by
      rw [h1]; norm_num [U64]
    rw [crates_allocs_formula i _ hlt, crates_allocs_formula j _ hlt, h1]
    intro heq
    rw [U64] at heq hi hj
    omega
  · intro sched hbud
    exact (sid_trace_nodup_aux sched Sid.initSystem [] sid_init_inv hbud).1

/-- Witness for C7 at concrete allocation indices and a concrete three-step
two-thread schedule that stays far below the counter wrap. -/
theorem sid_unique_witness :
    ((0 : Nat) < U64 ∧ (1 : Nat) < U64 ∧ (0 : Nat) ≠ 1
      ∧ 1 + Sid.SID_BLOCK_SIZE * ([0, 0, 1] : List Nat).length < U64)
    ∧ (Crates.loadedHost none).allocs 0 ≠ (Crates.loadedHost none).allocs 1
    ∧ (Sid.trace Sid.initSystem [0, 0, 1]).Nodup :=
  ⟨⟨by norm_num [U64], by norm_num [U64], by decide,
      by norm_num [Sid.SID_BLOCK_SIZE, U64]⟩,
    sid_unique_per_instance_and_allocator.1 none 0 1 (by norm_num [U64])
      (by norm_num [U64]) (by decide),
    sid_unique_per_instance_and_allocator.2 [0, 0, 1]
      (by norm_num [Sid.SID_BLOCK_SIZE, U64])⟩

/-- C8.  On every exit path from the fast unary call — missing plugin entry,
trapped plugin panic, synchronous non-`Ok` status, or normal return — the
thread-local oneshot cell is null when the operation returns, in both the
crates host (`call_unary_fast`) and the full host (`call_raw_unary_fast`). -/
theorem fast_cell_nulled :
    (∀ (h : Crates.NylonRingHost) (entry : String) (payload : Bytes),
      (Crates.call_unary_fast h entry payload).host.host_ctx.cellTx = none)
    ∧ (∀ (heap : Nat → Bytes) (h : Full.NylonRingHost) (entry : String)
        (payload : Bytes),
      (Full.call_raw_unary_fast heap h entry payload).host.host_ctx.cellTx
        = none) := by
  constructor
  · intro h entry payload
    obtain ⟨ph, ctx, ns⟩ := h
    cases ph with
    | none => rfl
    | some beh =>
        cases hr : (beh entry ns payload).ret with
        | none =>
            simp [Crates.call_unary_fast, hr, Crates.CallResult.host]
        | some st =>
            by_cases hst : st = NrStatus.Ok <;>
              simp [Crates.call_unary_fast, hr, hst, Crates.CallResult.host]
  · intro heap h entry payload
    obtain ⟨ph, ctx, ns⟩ := h
    cases ph with
    | none => rfl
    | some beh =>
        cases hr : (beh entry ns payload).ret with
        | none =>
            simp [Full.call_raw_unary_fast, hr, Full.CallResult.host]
        | some st =>
            by_cases hst : st = NrStatus.Ok <;>
              simp [Full.call_raw_unary_fast, hr, hst, Full.CallResult.host]

/-- C9.  `dispatch_fast` saves the calling thread's direct-result cell and
restores exactly that saved value on every return path: when the target
plugin returns synchronously (it does not panic), the outer caller's
direct-result cell is left exactly as `dispatch_fast` found it. -/
theorem dispatch_fast_restores_cell :
    ∀ (plugins : String → Option Callbacks.Plugin) (s : Callbacks.CbState)
      (target entry : String) (payload : Bytes) (p : Callbacks.Plugin)
      (beh : Callbacks.CbBeh) (st : NrStatus),
      plugins target = some p →
      p.handle = some beh →
      (beh entry (Sid.next_sid s.global s.block).1 payload).ret = some st →
      (Callbacks.dispatch_fast plugins (some s) target entry payload).state.map
        (fun s2 => s2.cellR) = some s.cellR := by
  intro plugins s target entry payload p beh st hplug hh hret
  simp only [Callbacks.dispatch_fast, hplug, hh, hret]
  by_cases hst : st = NrStatus.Ok
  · simp only [if_pos hst]
    split <;> simp [Callbacks.DispatchResult.state]
  · simp [if_neg hst, Callbacks.DispatchResult.state]

/-- Witness for C9: the outer caller published a slot holding `(Err, [7])`;
the target plugin answers through the direct-result slot and returns `Ok`;
the cell afterwards again points at the outer slot holding `(Err, [7])`. -/
theorem dispatch_fast_restores_cell_witness :
    (Callbacks.regFast "B" = some Callbacks.pluginFast
      ∧ Callbacks.pluginFast.handle = some Callbacks.cbFastBeh
      ∧ (Callbacks.cbFastBeh "e"
          (Sid.next_sid Callbacks.ctxWithOuterSlot.global
            Callbacks.ctxWithOuterSlot.block).1 []).ret = some NrStatus.Ok)
    ∧ (Callbacks.dispatch_fast Callbacks.regFast (some Callbacks.ctxWithOuterSlot)
        "B" "e" []).state.map (fun s2 => s2.cellR)
        = some Callbacks.ctxWithOuterSlot.cellR :=
  ⟨⟨rfl, rfl, rfl⟩,
    dispatch_fast_restores_cell Callbacks.regFast Callbacks.ctxWithOuterSlot
      "B" "e" [] Callbacks.pluginFast Callbacks.cbFastBeh .Ok rfl rfl rfl⟩

/-- C10.  Every host-exposed FFI callback, invoked with a null `host_ctx`
pointer, performs no state mutation and returns immediately with its empty
or default value: unit and no state for `send_result`, empty bytes for
`set_state` and `get_state`, the default `(status, bytes)` tuple for
`dispatch_sync` and `dispatch_fast`, `Err` for `dispatch_async`,
`(Err, 0)` for `dispatch_stream`, an `Err` tuple for `stream_read`, and
`Err` for `stream_write` and `stream_close`. -/
theorem null_ctx_callbacks_return_default :
    (∀ (sid : Nat) (st : NrStatus) (p : Bytes),
      Callbacks.send_result_vec_callback none sid st p = none)
    ∧ (∀ (sid : Nat) (k : String) (v : Bytes),
      Callbacks.set_state_callback none sid k v = ([], none))
    ∧ (∀ (sid : Nat) (k : String),
      Callbacks.get_state_callback none sid k = [])
    ∧ (∀ (plugins : String → Option Callbacks.Plugin) (target entry : String)
        (p : Bytes),
      Callbacks.dispatch_sync plugins none target entry p
        = .ret Callbacks.defaultStatusVec.1 Callbacks.defaultStatusVec.2 none)
    ∧ (∀ (plugins : String → Option Callbacks.Plugin) (target entry : String)
        (p : Bytes),
      Callbacks.dispatch_fast plugins none target entry p
        = .ret Callbacks.defaultStatusVec.1 Callbacks.defaultStatusVec.2 none)
    ∧ (∀ (plugins : String → Option Callbacks.Plugin) (target entry : String)
        (p : Bytes),
      Callbacks.dispatch_async plugins none target entry p = .ret .Err none)
    ∧ (∀ (plugins : String → Option Callbacks.Plugin) (target entry : String)
        (p : Bytes),
      Callbacks.dispatch_stream plugins none target entry p = .ret .Err 0 none)
    ∧ (∀ sid : Nat, Callbacks.stream_read none sid = .ret .Err [] none)
    ∧ (∀ (sid : Nat) (d : Bytes),
      Callbacks.stream_write none sid d = (.Err, none))
    ∧ (∀ sid : Nat, Callbacks.stream_close none sid = (.Err, none)) :=
  ⟨fun _ _ _ => rfl, fun _ _ _ => rfl, fun _ _ => rfl, fun _ _ _ _ => rfl,
    fun _ _ _ _ => rfl, fun _ _ _ _ => rfl, fun _ _ _ _ => rfl, fun _ => rfl,
    fun _ _ => rfl, fun _ => rfl⟩

